import Mathlib

/-!
Verification development for the fullon ticker service.

The definitions below are a shallow embedding of the core of the service:
the per-exchange websocket handler (exchange_handler.py), the ticker
manager (ticker_manager.py), the daemon orchestrator (daemon.py) and the
live collector callback (ticker/live_collector.py).  Effectful calls
(websocket subscribe and unsubscribe, cache writes, database reads) are
modelled by explicit success oracles passed in as parameters, and the
observable calls a function issues are returned as data so that call
counts can be stated and proved.  Python dictionaries are modelled as
association lists with Python dict semantics (update in place, insertion
order preserved).
-/

namespace TickerService

/-! ## Association lists modelling Python dicts -/

/-- Lookup of a key, first match wins (Python dicts have unique keys). -/
def dlookup {α : Type} (k : String) : List (String × α) → Option α
  | [] => none
  | (k', v) :: t => if k' = k then some v else dlookup k t

/-- Python style insertion: overwrite in place when present, append otherwise. -/
def dinsert {α : Type} (k : String) (v : α) : List (String × α) → List (String × α)
  | [] => [(k, v)]
  | (k', v') :: t => if k' = k then (k, v) :: t else (k', v') :: dinsert k v t

/-- Deletion of a key (Python del).  Stated as a filter, which agrees with
the in-place deletion because dict keys are unique. -/
def derase {α : Type} (k : String) (m : List (String × α)) : List (String × α) :=
  m.filter (fun p => p.1 != k)

/-- Membership test, mirrors the Python in operator on dicts. -/
def dcontains {α : Type} (k : String) (m : List (String × α)) : Bool :=
  (dlookup k m).isSome

/-- Keys of an association list. -/
def dkeys {α : Type} (m : List (String × α)) : List String := m.map Prod.fst

/-! ## Connection status of the exchange handler (ConnectionStatus enum) -/

inductive ConnectionStatus : Type
  | disconnected
  | connecting
  | connected
  | reconnecting
  | error
deriving DecidableEq, Repr

/-- State owned by one ExchangeHandler instance (fields of the Python class). -/
structure HandlerState : Type where
  exchangeName : String
  symbols : List String
  status : ConnectionStatus
  reconnectCount : Nat
  /-- the per-symbol subscription id dict (symbol to subscription id) -/
  subscriptionIds : List (String × String)
  /-- whether the underlying websocket client is connected -/
  clientConnected : Bool
  factoryInit : Bool
deriving DecidableEq, Repr

/-- Success oracle for the connect and subscribe sequence of start. -/
structure StartEnv : Type where
  connectOk : Bool
  subOk : String → Bool
  subId : String → String

/-- Result of running start: final handler state, whether an exception was
raised to the caller, and whether a reconnect task was scheduled. -/
structure StartResult : Type where
  state : HandlerState
  raised : Bool
  scheduledReconnect : Bool
deriving Repr

/-- The subscribe loop of start: subscribe to each symbol in order, recording
the returned id, stopping at the first symbol whose subscribe raises.  The
second component is true when every subscribe succeeded. -/
def subscribeSeq (env : StartEnv) : List String → List (String × String) →
    List (String × String) × Bool
  | [], m => (m, true)
  | sym :: rest, m =>
    if env.subOk sym then subscribeSeq env rest (dinsert sym (env.subId sym) m)
    else (m, false)

namespace ExchangeHandler

/-- Model of ExchangeHandler.start.  Mirrors the source: a no-op when already
connected or connecting; otherwise transitions to connecting, connects and
subscribes each symbol; on any failure it transitions to error, disconnects
and shuts the factory down (the _cleanup helper), schedules a reconnect task
and re-raises.  Note that _cleanup does not touch the subscription dict. -/
def start (s : HandlerState) (env : StartEnv) : StartResult :=
  if s.status = ConnectionStatus.connected ∨ s.status = ConnectionStatus.connecting then
    ⟨s, false, false⟩
  else
    let s1 : HandlerState := { s with status := ConnectionStatus.connecting, factoryInit := true }
    if env.connectOk then
      let s2 : HandlerState := { s1 with clientConnected := true }
      match subscribeSeq env s.symbols s.subscriptionIds with
      | (m, true) =>
        ⟨{ s2 with subscriptionIds := m, status := ConnectionStatus.connected }, false, false⟩
      | (m, false) =>
        let s3 : HandlerState := { s2 with subscriptionIds := m }
        let s4 : HandlerState := { s3 with status := ConnectionStatus.error }
        ⟨{ s4 with clientConnected := false, factoryInit := false }, true, true⟩
    else
      let s3 : HandlerState := { s1 with status := ConnectionStatus.error }
      ⟨{ s3 with clientConnected := false, factoryInit := false }, true, true⟩

end ExchangeHandler

/-- Success oracle for update_symbols traffic. -/
structure UpdateEnv : Type where
  subOk : String → Bool
  unsubOk : String → Bool
  subId : String → String

/-- Result of update_symbols: new state plus the unsubscribe and subscribe
calls issued to the websocket client, in order. -/
structure UpdateResult : Type where
  state : HandlerState
  unsubCalls : List String
  subCalls : List String
deriving Repr

/-- Python set difference set(xs) - set(ys) as a duplicate-free list. -/
def diffList (xs ys : List String) : List String :=
  (xs.filter (fun a => !(ys.contains a))).dedup

/-- The removal loop of update_symbols: for each symbol to remove, when it is
present in the subscription dict an unsubscribe call is issued; the entry is
deleted only when the call succeeds (the del sits after the await). -/
def removePhase (env : UpdateEnv) (m : List (String × String)) :
    List String → List (String × String) × List String
  | [] => (m, [])
  | sym :: rest =>
    if dcontains sym m then
      let m' := if env.unsubOk sym then derase sym m else m
      let r := removePhase env m' rest
      (r.1, sym :: r.2)
    else removePhase env m rest

/-- The addition loop of update_symbols: a subscribe call is issued for every
symbol to add; the id is recorded only when the call succeeds. -/
def addPhase (env : UpdateEnv) (m : List (String × String)) :
    List String → List (String × String) × List String
  | [] => (m, [])
  | sym :: rest =>
    let m' := if env.subOk sym then dinsert sym (env.subId sym) m else m
    let r := addPhase env m' rest
    (r.1, sym :: r.2)

namespace ExchangeHandler

/-- Model of ExchangeHandler.update_symbols.  When not connected only the
internal symbol list is replaced and no traffic is issued.  When connected
the two set differences are computed (Python set semantics, modelled by
dedup), removals and additions are processed with per-symbol failure
tolerance, and finally the internal symbol list is replaced by the new
list unconditionally. -/
def update_symbols (s : HandlerState) (env : UpdateEnv) (newSymbols : List String) :
    UpdateResult :=
  if s.status = ConnectionStatus.connected then
    let toRemove := diffList s.symbols newSymbols
    let toAdd := diffList newSymbols s.symbols
    let r1 := removePhase env s.subscriptionIds toRemove
    let r2 := addPhase env r1.1 toAdd
    ⟨{ s with symbols := newSymbols, subscriptionIds := r2.1 }, r1.2, r2.2⟩
  else ⟨{ s with symbols := newSymbols }, [], []⟩

end ExchangeHandler

/-- Result of one invocation of reconnect_with_backoff: the state when the
invocation returns, the backoff delay slept, and how many further
reconnect_with_backoff tasks were scheduled during the invocation (one can
be scheduled by the exception handler of start, and one more by the retry
check of reconnect_with_backoff itself). -/
structure ReconnectResult : Type where
  state : HandlerState
  sleptFor : Nat
  scheduledTasks : Nat
deriving Repr

namespace ExchangeHandler

/-- Model of ExchangeHandler.reconnect_with_backoff.  The counter is
incremented first, the delay is min(2 ^ count, 60) seconds, then start is
retried.  On success the counter is reset to zero.  On failure another task
is scheduled only when the counter is still below 10 — but the failing start
call has itself already scheduled one unconditionally. -/
def reconnect_with_backoff (s : HandlerState) (env : StartEnv) : ReconnectResult :=
  let s1 : HandlerState :=
    { s with status := ConnectionStatus.reconnecting, reconnectCount := s.reconnectCount + 1 }
  let delay := min (2 ^ s1.reconnectCount) 60
  let r := ExchangeHandler.start s1 env
  if r.raised then
    if s1.reconnectCount < 10 then
      ⟨r.state, delay, (if r.scheduledReconnect then 1 else 0) + 1⟩
    else
      ⟨{ r.state with status := ConnectionStatus.error }, delay,
        if r.scheduledReconnect then 1 else 0⟩
  else
    ⟨{ r.state with reconnectCount := 0 }, delay, if r.scheduledReconnect then 1 else 0⟩

end ExchangeHandler

/-! ## Raw events and Tick construction (the delivery path) -/

/-- A raw ticker event as a loosely typed record.  A field that is absent
from the underlying dict is none; numeric values are already parsed. -/
structure RawTicker : Type where
  symbol : Option String := none
  exchange : Option String := none
  price : Option Rat := none
  last : Option Rat := none
  bid : Option Rat := none
  ask : Option Rat := none
  volume : Option Rat := none
  time : Option Rat := none
  timestampField : Option Rat := none
  change : Option Rat := none
  percentage : Option Rat := none
deriving DecidableEq, Repr

/-- The canonical Tick record (fullon_orm.models.Tick as used here). -/
structure Tick : Type where
  symbol : String
  exchange : String
  price : Rat
  volume : Option Rat := none
  time : Option Rat := none
  bid : Option Rat := none
  ask : Option Rat := none
  last : Option Rat := none
  change : Option Rat := none
  percentage : Option Rat := none
deriving DecidableEq, Repr

/-- Python truthiness guard used for bid, ask, change and percentage in the
handler: float(x) if d.get(key) else None, so a value of zero maps to none. -/
def falsyOpt (o : Option Rat) : Option Rat :=
  match o with
  | some x => if x = 0 then none else some x
  | none => none

/-- Python `a or b` on an optional float against a default: a zero or absent
value falls through to the default. -/
def pyOr (a : Option Rat) (b : Rat) : Rat :=
  match a with
  | some x => if x = 0 then b else x
  | none => b

/-- Python `a or b` where both operands are optional floats. -/
def pyOrOpt (a b : Option Rat) : Option Rat :=
  match a with
  | some x => if x = 0 then b else some x
  | none => b

/-- Tick construction on the handler delivery path (_process_ticker in
exchange_handler.py).  The dict accesses d["symbol"] and d["price"] raise
KeyError when the field is absent; the KeyError is caught and the event is
dropped (no Tick, no cache write), so the result is none in those cases.
Note that last defaults to price, but price never falls back to last. -/
def handlerMkTick (exchangeName : String) (now : Rat) (d : RawTicker) : Option Tick :=
  match d.symbol, d.price with
  | some sym, some p =>
    some { symbol := sym
           exchange := d.exchange.getD exchangeName
           price := p
           volume := some (d.volume.getD 0)
           time := some (d.time.getD now)
           bid := falsyOpt d.bid
           ask := falsyOpt d.ask
           last := some (d.last.getD p)
           change := falsyOpt d.change
           percentage := falsyOpt d.percentage }
  | _, _ => none

/-- Tick construction on the batch path (process_ticker_batch in
ticker_manager.py): events without a symbol, or with neither price nor
last, are skipped; otherwise price is d.get("price") or d.get("last", 0.0)
so an absent price falls back to last. -/
def batchMkTick (exchangeName : String) (d : RawTicker) : Option Tick :=
  match d.symbol with
  | none => none
  | some sym =>
    if d.price = none ∧ d.last = none then none
    else
      some { symbol := sym
             exchange := exchangeName
             price := pyOr d.price (d.last.getD 0)
             time := pyOrOpt d.timestampField d.time
             volume := d.volume
             bid := d.bid
             ask := d.ask
             last := d.last
             change := d.change
             percentage := d.percentage }

/-! ## TickerManager state and operations (ticker_manager.py) -/

/-- Counters owned by the TickerManager. -/
structure TMState : Type where
  tickerCount : List (String × Nat) := []
  errorCounts : List (String × Nat) := []
  recoveryCounts : List (String × Nat) := []
  latencySamples : List (String × List Nat) := []
deriving DecidableEq, Repr

/-- A tick argument of TickerManager.process_ticker, reduced to the fields
the validation looks at.  The argument itself can be None (falsy). -/
structure TMTick : Type where
  symbol : Option String
  price : Option Rat
deriving DecidableEq, Repr

/-- The validation of process_ticker: the tick must have a non-falsy symbol
and a price that is not None (a price of zero is accepted). -/
def validTMTick (t : TMTick) : Bool :=
  (match t.symbol with
   | some sy => sy ≠ ""
   | none => false) && t.price.isSome

/-- What a call to process_ticker did. -/
inductive PTOutcome : Type
  | dropped
  | raised
  | processed
deriving DecidableEq, Repr

/-- Append a latency sample and keep only the last 1000 entries (the cap
applied on the single-tick path). -/
def appendCapped (l : List Nat) (x : Nat) : List Nat :=
  let l2 := l ++ [x]
  if 1000 < l2.length then l2.drop (l2.length - 1000) else l2

/-- Increment a per-exchange counter dict by n (0 is inserted first when the
exchange is missing, as in the source). -/
def dbump (k : String) (n : Nat) (m : List (String × Nat)) : List (String × Nat) :=
  dinsert k ((dlookup k m).getD 0 + n) m

namespace TickerManager

/-- Model of TickerManager.process_ticker.  Invalid ticks are dropped before
any counter is touched.  When the cache write raises, the exception
propagates to the caller and no counter at all is updated (in particular the
per-exchange error count is left unchanged: error counting lives only in
process_ticker_with_retry).  On success the tick count is incremented and
the measured latency is appended to the capped window. -/
def process_ticker (s : TMState) (exchangeName : String) (tick : Option TMTick)
    (cacheOk : Bool) (lat : Nat) : TMState × PTOutcome :=
  match tick with
  | none => (s, PTOutcome.dropped)
  | some t =>
    if validTMTick t then
      if cacheOk then
        let cur := (dlookup exchangeName s.latencySamples).getD []
        ({ s with tickerCount := dbump exchangeName 1 s.tickerCount
                  latencySamples := dinsert exchangeName (appendCapped cur lat) s.latencySamples },
         PTOutcome.processed)
      else (s, PTOutcome.raised)
    else (s, PTOutcome.dropped)

/-- Model of TickerManager.process_ticker_batch.  Valid items are collected
with batchMkTick; when there is at least one and the cache write succeeds,
the tick count grows by the number of valid ticks and one batch latency
sample is appended WITHOUT the 1000-sample truncation. -/
def process_ticker_batch (s : TMState) (exchangeName : String)
    (batch : List RawTicker) (cacheOk : Bool) (lat : Nat) : TMState :=
  if batch.isEmpty then s
  else
    let valid := batch.filterMap (batchMkTick exchangeName)
    if valid.isEmpty then s
    else if cacheOk then
      let cur := (dlookup exchangeName s.latencySamples).getD []
      { s with tickerCount := dbump exchangeName valid.length s.tickerCount
               latencySamples := dinsert exchangeName (cur ++ [lat]) s.latencySamples }
    else s

end TickerManager

/-- One TickerManager operation, for reasoning about sequences of calls. -/
inductive TMOp : Type
  | single (exchangeName : String) (tick : Option TMTick) (cacheOk : Bool) (lat : Nat)
  | batch (exchangeName : String) (items : List RawTicker) (cacheOk : Bool) (lat : Nat)
deriving DecidableEq, Repr

/-- Run a sequence of TickerManager operations. -/
def runTMOps (s : TMState) : List TMOp → TMState
  | [] => s
  | TMOp.single ex t c l :: rest => runTMOps (TickerManager.process_ticker s ex t c l).1 rest
  | TMOp.batch ex items c l :: rest =>
      runTMOps (TickerManager.process_ticker_batch s ex items c l) rest

/-- Number of batch operations in a sequence. -/
def countBatchOps (ops : List TMOp) : Nat :=
  ops.countP (fun op => match op with
    | TMOp.batch _ _ _ _ => true
    | TMOp.single _ _ _ _ => false)

/-- Length of the latency window of one exchange. -/
def latWindowLen (s : TMState) (exchangeName : String) : Nat :=
  ((dlookup exchangeName s.latencySamples).getD []).length

/-! ## Daemon startup (daemon.py) -/

/-- One row returned by db.exchanges.get_user_exchanges. -/
structure UserExchange : Type where
  exId : Option Nat
  catExId : Nat
  exNamed : String
deriving DecidableEq, Repr

/-- One row returned by db.exchanges.get_cat_exchanges. -/
structure CatExchange : Type where
  catExId : Nat
  name : String
deriving DecidableEq, Repr

/-- The configuration store as seen by the daemon at startup, together with
a flag saying whether the database connection itself works. -/
structure DbConfig : Type where
  dbOk : Bool
  adminUid : Option Nat
  userExchanges : List UserExchange
  catExchanges : List CatExchange
  /-- db.symbols.get_all filtered by exchange name -/
  symbolsByName : String → List String

/-- Python truthiness of an optional integer (0 and None are both falsy). -/
def pyTruthyNat (o : Option Nat) : Bool :=
  match o with
  | some n => n != 0
  | none => false

/-- Accumulator of the per-exchange loop of _initialize_exchange_handlers:
the handlers dict and the number of configuration reads issued so far. -/
structure InitAcc : Type where
  handlers : List (String × List String) := []
  symbolReads : Nat := 0
  catReads : Nat := 0
deriving Repr

/-- Result of _initialize_exchange_handlers. -/
structure InitResult : Type where
  handlers : List (String × List String)
  symbolReads : Nat
  catReads : Nat
  raised : Bool
deriving Repr

/-- The per-exchange loop of _initialize_exchange_handlers.  For each user
exchange with a truthy ex_id the loop reads the full category-exchange list
(one read), resolves the exchange name, then issues one symbol-list read
db.symbols.get_all(exchange_name=name) — a read per exchange, inside the
loop.  Exchanges whose handler fails to start are skipped (the exception is
caught and the loop continues). -/
def initLoop (cfg : DbConfig) (startOk : String → Bool) :
    List UserExchange → InitAcc → InitAcc
  | [], acc => acc
  | e :: rest, acc =>
    if pyTruthyNat e.exId then
      let acc1 : InitAcc := { acc with catReads := acc.catReads + 1 }
      match cfg.catExchanges.find? (fun c => c.catExId == e.catExId) with
      | none => initLoop cfg startOk rest acc1
      | some c =>
        if c.name = "" then initLoop cfg startOk rest acc1
        else
          let acc2 : InitAcc := { acc1 with symbolReads := acc1.symbolReads + 1 }
          let syms := cfg.symbolsByName c.name
          if syms.isEmpty then initLoop cfg startOk rest acc2
          else if startOk c.name then
            initLoop cfg startOk rest
              { acc2 with handlers := dinsert c.name syms acc2.handlers }
          else initLoop cfg startOk rest acc2
    else initLoop cfg startOk rest acc

/-- Model of TickerDaemon._initialize_exchange_handlers.  A database failure
raises to the caller; an unresolved admin user only logs and returns with no
handlers; otherwise the per-exchange loop runs. -/
def init_exchange_handlers (cfg : DbConfig) (startOk : String → Bool) : InitResult :=
  if cfg.dbOk then
    if pyTruthyNat cfg.adminUid then
      let acc := initLoop cfg startOk cfg.userExchanges {}
      ⟨acc.handlers, acc.symbolReads, acc.catReads, false⟩
    else ⟨[], 0, 0, false⟩
  else ⟨[], 0, 0, true⟩

/-- The user exchanges for which the startup loop issues a symbol-list read:
those with a truthy ex_id whose category id resolves to a non-empty name. -/
def symbolReadTargets (cfg : DbConfig) : List UserExchange :=
  cfg.userExchanges.filter (fun e =>
    pyTruthyNat e.exId &&
      (match cfg.catExchanges.find? (fun c => c.catExId == e.catExId) with
       | some c => c.name != ""
       | none => false))

/-- Daemon status enum (DaemonStatus). -/
inductive DaemonStatus : Type
  | stopped
  | starting
  | running
  | stopping
  | error
deriving DecidableEq, Repr

/-- Daemon state after start, reduced to what the claims mention. -/
structure DaemonState : Type where
  status : DaemonStatus
  running : Bool
  handlers : List (String × List String)
  processRegistered : Bool
deriving Repr

namespace TickerDaemon

/-- Model of TickerDaemon.start from the stopped state.  Handler
construction errors are swallowed inside _initialize_exchange_handlers, so
start only reaches the error branch when initialization raises (a database
failure).  Otherwise — even with zero handlers — it registers the daemon
process entry (register errors are swallowed, so registration reflects the
cache availability registerOk) and transitions to Running. -/
def start (cfg : DbConfig) (startOk : String → Bool) (registerOk : Bool) : DaemonState :=
  let ir := init_exchange_handlers cfg startOk
  if ir.raised then
    { status := DaemonStatus.error, running := false, handlers := [],
      processRegistered := false }
  else
    { status := DaemonStatus.running, running := true, handlers := ir.handlers,
      processRegistered := registerOk }

end TickerDaemon

/-! ## Live collector callback (ticker/live_collector.py) -/

/-- State of the LiveTickerCollector that the shared callback touches. -/
structure CollectorState : Type where
  processIds : List (String × String)
  lastProcessUpdate : List (String × Int)
deriving DecidableEq, Repr

/-- A health write issued by the callback: the component key, whether the
status written was Running (true) or Error (false), and the wall-clock time
of the write. -/
structure HealthWrite : Type where
  key : String
  isRunning : Bool
  time : Int
deriving DecidableEq, Repr

/-- A tick delivered to the shared exchange callback, with the wall clock at
delivery and whether the cache write for it succeeds. -/
structure CbEvent : Type where
  symbol : Option String
  now : Int
  cacheOk : Bool
deriving DecidableEq, Repr

/-- Model of the shared callback built by _create_exchange_callback.  A tick
without a symbol attribute is ignored.  When the cache write raises, the
except branch writes an Error status for the key (when registered) with no
rate limiting and without touching the last-update record.  Otherwise a
Running update is written only when at least 30 seconds have passed since
the last recorded update for the key, and the record is refreshed. -/
def ticker_callback (st : CollectorState) (exchangeName : String) (ev : CbEvent) :
    CollectorState × List HealthWrite :=
  match ev.symbol with
  | none => (st, [])
  | some sym =>
    let key := exchangeName ++ ":" ++ sym
    if ev.cacheOk then
      if dcontains key st.processIds then
        let lastT := (dlookup key st.lastProcessUpdate).getD 0
        if 30 ≤ ev.now - lastT then
          ({ st with lastProcessUpdate := dinsert key ev.now st.lastProcessUpdate },
           [⟨key, true, ev.now⟩])
        else (st, [])
      else (st, [])
    else
      if dcontains key st.processIds then (st, [⟨key, false, ev.now⟩])
      else (st, [])

/-- Run the shared callback over a sequence of delivered events,
accumulating the health writes in delivery order. -/
def runCallbacks (st : CollectorState) (exchangeName : String) :
    List CbEvent → CollectorState × List HealthWrite
  | [] => (st, [])
  | ev :: rest =>
    let r := ticker_callback st exchangeName ev
    let r' := runCallbacks r.1 exchangeName rest
    (r'.1, r.2 ++ r'.2)

/-- The times of the Running-status health writes for one key. -/
def runningTimes (key : String) (ws : List HealthWrite) : List Int :=
  ws.filterMap (fun w => if w.key = key ∧ w.isRunning = true then some w.time else none)

/-! ## Concrete fixtures used by witnesses and counterexamples -/

/-- A freshly constructed handler for two symbols (scenario 3 of the spec). -/
def h0C3 : HandlerState :=
  ⟨"binance", ["BTC/USDT", "ETH/USDT"], ConnectionStatus.disconnected, 0, [], false, false⟩

/-- Connect succeeds, the first subscribe succeeds, the second raises. -/
def envC3 : StartEnv := ⟨true, fun sy => sy == "BTC/USDT", fun _ => "sub-1"⟩

/-- A handler that has already failed nine reconnect attempts. -/
def h9C7 : HandlerState := ⟨"kraken", ["BTC/USD"], ConnectionStatus.error, 9, [], false, false⟩

/-- An environment in which connecting always fails. -/
def envFailC7 : StartEnv := ⟨false, fun _ => false, fun _ => ""⟩

/-- A connected handler subscribed to BTC/USDT and ETH/USDT. -/
def hC4 : HandlerState :=
  ⟨"binance", ["BTC/USDT", "ETH/USDT"], ConnectionStatus.connected, 0,
    [("BTC/USDT", "s1"), ("ETH/USDT", "s2")], true, true⟩

/-- All subscribe and unsubscribe traffic succeeds. -/
def envC4 : UpdateEnv := ⟨fun _ => true, fun _ => true, fun _ => "s-new"⟩

def desiredC4 : List String := ["BTC/USDT", "ADA/USDT"]

/-- A raw event with a last value but no price field. -/
def evC5 : RawTicker := { symbol := some "BTC/USDT", last := some 50000 }

/-- A raw event with neither price nor last. -/
def evC5b : RawTicker := { symbol := some "BTC/USDT" }

/-- A valid tick for the manager. -/
def tickC6 : TMTick := ⟨some "BTC/USDT", some 50000⟩

/-- A fresh TickerManager. -/
def s0TM : TMState := {}

/-- A valid raw event for the batch path. -/
def rawC8 : RawTicker := { symbol := some "BTC/USDT", price := some 50000 }

/-- One successful single-tick operation. -/
def opC8 : TMOp := TMOp.single "binance" (some tickC6) true 7

/-- One thousand successful single-tick operations followed by one batch. -/
def opsC8 : List TMOp := List.replicate 1000 opC8 ++ [TMOp.batch "binance" [rawC8] true 7]

/-- Manager state after c ticks for binance with latency window w. -/
def mkStC8 (c : Nat) (w : List Nat) : TMState :=
  { tickerCount := [("binance", c)], errorCounts := [], recoveryCounts := [],
    latencySamples := [("binance", w)] }

/-- Two configured exchanges for the admin user, each with symbols. -/
def cfgC1 : DbConfig :=
  { dbOk := true, adminUid := some 1,
    userExchanges := [⟨some 1, 1, "binance1"⟩, ⟨some 2, 2, "kraken1"⟩],
    catExchanges := [⟨1, "binance"⟩, ⟨2, "kraken"⟩],
    symbolsByName := fun n => if n = "binance" then ["BTC/USDT"] else ["ETH/USD"] }

/-- Every handler start succeeds. -/
def allOk : String → Bool := fun _ => true

/-- An admin user with no configured exchanges at all. -/
def cfgC2 : DbConfig :=
  { dbOk := true, adminUid := some 1, userExchanges := [], catExchanges := [],
    symbolsByName := fun _ => [] }

def keyC9 : String := "binance:BTC/USDT"

/-- A collector whose key saw its last health update at time 100. -/
def stC9 : CollectorState := ⟨[(keyC9, "proc-1")], [(keyC9, 100)]⟩

/-- A tick 10 seconds after the last health update whose cache write fails. -/
def evC9 : CbEvent := ⟨some "BTC/USDT", 110, false⟩

/-- A tick 10 seconds after the last health update, cache write succeeds. -/
def evC9ok : CbEvent := ⟨some "BTC/USDT", 110, true⟩

/-- Two successfully processed ticks, 40 and 50 seconds after the update. -/
def evsC9 : List CbEvent := [⟨some "BTC/USDT", 140, true⟩, ⟨some "BTC/USDT", 150, true⟩]

/-! ## Library lemmas about the dict model -/

theorem dlookup_dinsert {α : Type} (k k' : String) (v : α) (m : List (String × α)) :
    dlookup k (dinsert k' v m) = if k' = k then some v else dlookup k m := by
  induction m with
  | nil => by_cases h : k' = k <;> simp [dinsert, dlookup, h]
  | cons hd t ih =>
    obtain ⟨k₀, v₀⟩ := hd
    by_cases h0 : k₀ = k'
    · subst h0
      by_cases h1 : k₀ = k <;> simp [dinsert, dlookup, h1]
    · by_cases h1 : k₀ = k
      · subst h1
        have h2 : ¬ k' = k₀ := fun h => h0 h.symm
        simp [dinsert, dlookup, h0, h2]
      · simp [dinsert, dlookup, h0, h1, ih]

theorem dlookup_derase {α : Type} (k k' : String) (m : List (String × α)) (hne : k' ≠ k) :
    dlookup k (derase k' m) = dlookup k m := by
  induction m with
  | nil => rfl
  | cons hd t ih =>
    obtain ⟨k₀, v₀⟩ := hd
    simp only [derase] at ih ⊢
    by_cases h0 : k₀ = k'
    · subst h0
      simp [List.filter_cons, dlookup, hne, ih]
    · by_cases h1 : k₀ = k
      · subst h1
        simp [List.filter_cons, dlookup, h0, ih]
      · simp [List.filter_cons, dlookup, h0, h1, ih]

theorem dlookup_derase_self {α : Type} (k : String) (m : List (String × α)) :
    dlookup k (derase k m) = none := by
  induction m with
  | nil => rfl
  | cons hd t ih =>
    obtain ⟨k₀, v₀⟩ := hd
    simp only [derase] at ih ⊢
    by_cases h0 : k₀ = k <;>
      simp [List.filter_cons, dlookup, h0, ih]

theorem dcontains_dinsert {α : Type} (k k' : String) (v : α) (m : List (String × α)) :
    dcontains k (dinsert k' v m) = (k' = k || dcontains k m) := by
  by_cases h : k' = k <;> simp [dcontains, dlookup_dinsert, h]

theorem dlookup_singleton_self {α : Type} (k : String) (v : α) :
    dlookup k [(k, v)] = some v := by
  simp [dlookup]

/-! ## Claim C10 -/

/-- Helper: filtering a list by non-membership in itself gives the empty list. -/
theorem filter_not_contains_self (l : List String) :
    l.filter (fun x => !(l.contains x)) = [] := by
  rw [List.filter_eq_nil_iff]
  intro a ha
  simp [ha]

/-- Helper: the set difference of a list with itself is empty. -/
theorem diffList_self (l : List String) : diffList l l = [] := by
  simp [diffList, filter_not_contains_self]

/-- Helper: update_symbols with the current symbol list issues no traffic. -/
theorem update_symbols_noop (s : HandlerState) (env : UpdateEnv) (desired : List String)
    (h : s.symbols = desired) :
    (ExchangeHandler.update_symbols s env desired).subCalls = [] ∧
    (ExchangeHandler.update_symbols s env desired).unsubCalls = [] := by
  by_cases h2 : s.status = ConnectionStatus.connected
  · unfold ExchangeHandler.update_symbols
    rw [if_pos h2, h]
    simp only [diffList_self]
    simp [removePhase, addPhase]
  · unfold ExchangeHandler.update_symbols
    rw [if_neg h2]
    exact ⟨rfl, rfl⟩

/-- C10: update_symbols(desired) always replaces the internal symbol list by
desired, in every connection state and regardless of per-symbol failures,
hence an immediately repeated update_symbols(desired) computes an empty diff
and issues zero subscribe and zero unsubscribe calls (failed symbols are not
retried by repeating the call). -/
theorem C10_update_symbols_sets_list_and_repeat_is_noop
    (s : HandlerState) (env env' : UpdateEnv) (desired : List String) :
    (ExchangeHandler.update_symbols s env desired).state.symbols = desired ∧
    (ExchangeHandler.update_symbols
        (ExchangeHandler.update_symbols s env desired).state env' desired).subCalls = [] ∧
    (ExchangeHandler.update_symbols
        (ExchangeHandler.update_symbols s env desired).state env' desired).unsubCalls = [] := by
  have hset : (ExchangeHandler.update_symbols s env desired).state.symbols = desired := by
    by_cases h : s.status = ConnectionStatus.connected <;>
      simp [ExchangeHandler.update_symbols, h]
  exact ⟨hset, (update_symbols_noop _ env' desired hset).1,
    (update_symbols_noop _ env' desired hset).2⟩

/-! ## Claim C2 -/

/-- C2 counterexample: with an admin user that has zero configured exchanges,
start() brings up zero handlers yet ends Running with the daemon process
registered — the claim says it should end in Error without registering. -/
theorem C2_counterexample :
    (TickerDaemon.start cfgC2 allOk true).handlers = [] ∧
    (TickerDaemon.start cfgC2 allOk true).status = DaemonStatus.running ∧
    (TickerDaemon.start cfgC2 allOk true).processRegistered = true := by
  refine ⟨rfl, rfl, rfl⟩

/-- C2 amended: whenever initialization does not raise (which covers a
missing admin user, zero exchanges, zero symbols and every handler failing
to start, because those paths only log), start() registers the daemon
process entry and transitions to Running even with zero handlers; Error is
reached only when initialization itself raises. -/
theorem C2_amended (cfg : DbConfig) (startOk : String → Bool) (registerOk : Bool)
    (hdb : cfg.dbOk = true) :
    (TickerDaemon.start cfg startOk registerOk).status = DaemonStatus.running ∧
    (TickerDaemon.start cfg startOk registerOk).running = true ∧
    (TickerDaemon.start cfg startOk registerOk).processRegistered = registerOk := by
  by_cases h : pyTruthyNat cfg.adminUid <;>
    simp [TickerDaemon.start, init_exchange_handlers, hdb, h]

/-- C2 witness: the amended theorem applied to the zero-exchange config. -/
theorem C2_witness :
    (TickerDaemon.start cfgC2 allOk true).status = DaemonStatus.running ∧
    (TickerDaemon.start cfgC2 allOk true).running = true ∧
    (TickerDaemon.start cfgC2 allOk true).processRegistered = true :=
  C2_amended cfgC2 allOk true rfl

/-! ## Claim C6 -/

/-- C6 counterexample: when the cache write raises, process_ticker leaves
the per-exchange error count untouched (still absent, i.e. zero, for
binance) while re-raising — the claim says the error count is incremented
by one. -/
theorem C6_counterexample :
    (TickerManager.process_ticker s0TM "binance" (some tickC6) false 5).1.errorCounts = [] ∧
    (TickerManager.process_ticker s0TM "binance" (some tickC6) false 5).2 =
      PTOutcome.raised := by
  refine ⟨rfl, rfl⟩

/-- C6 amended: for a valid tick whose cache write raises, process_ticker
re-raises the exception to the caller and leaves the whole manager state
unchanged — tick count and latency window are untouched as claimed, but the
per-exchange error count is not incremented either (error counting lives
only in the retry wrapper process_ticker_with_retry). -/
theorem C6_amended (s : TMState) (ex : String) (t : TMTick) (lat : Nat)
    (hv : validTMTick t = true) :
    TickerManager.process_ticker s ex (some t) false lat = (s, PTOutcome.raised) := by
  simp [TickerManager.process_ticker, hv]

/-- C6 witness: the amended theorem at a concrete valid tick. -/
theorem C6_witness :
    validTMTick tickC6 = true ∧
    TickerManager.process_ticker s0TM "binance" (some tickC6) false 5 =
      (s0TM, PTOutcome.raised) :=
  ⟨by decide, C6_amended s0TM "binance" tickC6 5 (by decide)⟩

/-! ## Claim C7 -/

/-- C7: the tenth consecutive reconnect attempt in a connect-always-fails
environment.  The delay before the attempt is min(2 ^ 10, 60) = 60 as
specified and the handler ends in Error with the counter at 10, but
scheduledTasks = 1: the failing start() call inside the attempt has already
scheduled a fresh reconnect task unconditionally, so automatic retrying
continues past the 10-attempt bound, contradicting the specified policy and
the intent of the max-attempts check in the source. -/
theorem C7_retry_scheduled_after_max_attempts :
    (ExchangeHandler.reconnect_with_backoff h9C7 envFailC7).state.status =
      ConnectionStatus.error ∧
    (ExchangeHandler.reconnect_with_backoff h9C7 envFailC7).state.reconnectCount = 10 ∧
    (ExchangeHandler.reconnect_with_backoff h9C7 envFailC7).sleptFor = 60 ∧
    (ExchangeHandler.reconnect_with_backoff h9C7 envFailC7).scheduledTasks = 1 := by
  refine ⟨rfl, rfl, by decide, rfl⟩

/-! ## Claim C5 -/

/-- C5 counterexample: on the handler delivery path an event carrying a last
value but no price field is dropped (KeyError on the price access), not
normalized with price = last as the claim states. -/
theorem C5_counterexample :
    evC5.price = none ∧ evC5.last = some 50000 ∧
    handlerMkTick "binance" 0 evC5 = none := by
  refine ⟨rfl, rfl, rfl⟩

/-- C5 amended: events with neither price nor last are rejected on both
delivery paths, and on the batch path an absent price does fall back to the
parsed last value; but on the handler single-event path an absent price
drops the event even when last is present. -/
theorem C5_amended (ex : String) (now : Rat) (d : RawTicker) (sym : String) (l : Rat) :
    (d.price = none → handlerMkTick ex now d = none) ∧
    (d.symbol = some sym → d.price = none → d.last = some l →
      ∃ t, batchMkTick ex d = some t ∧ t.price = l) ∧
    (d.price = none → d.last = none → batchMkTick ex d = none) := by
  refine ⟨?_, ?_, ?_⟩
  · intro hp
    cases hs : d.symbol <;> simp [handlerMkTick, hs, hp]
  · intro hs hp hl
    have hbt : batchMkTick ex d =
        some { symbol := sym
               exchange := ex
               price := pyOr d.price (d.last.getD 0)
               time := pyOrOpt d.timestampField d.time
               volume := d.volume
               bid := d.bid
               ask := d.ask
               last := d.last
               change := d.change
               percentage := d.percentage } := by
      simp [batchMkTick, hs, hp, hl]
    exact ⟨_, hbt, by simp [hp, hl, pyOr]⟩
  · intro hp hl
    cases hs : d.symbol <;> simp [batchMkTick, hs, hp, hl]

/-- C5 witness: the amended theorem applied to the two concrete events. -/
theorem C5_witness :
    handlerMkTick "binance" 0 evC5 = none ∧
    (∃ t, batchMkTick "binance" evC5 = some t ∧ t.price = 50000) ∧
    batchMkTick "binance" evC5b = none :=
  ⟨(C5_amended "binance" 0 evC5 "BTC/USDT" 50000).1 rfl,
   (C5_amended "binance" 0 evC5 "BTC/USDT" 50000).2.1 rfl rfl rfl,
   (C5_amended "binance" 0 evC5b "BTC/USDT" 0).2.2 rfl rfl⟩

/-! ## Claim C3 -/

/-- Helper: the subscribe loop of start never removes a recorded handle. -/
theorem subscribeSeq_preserves (env : StartEnv) :
    ∀ (syms : List String) (m : List (String × String)) (k : String),
      dcontains k m = true → dcontains k (subscribeSeq env syms m).1 = true := by
  intro syms
  induction syms with
  | nil => intro m k h; exact h
  | cons sym rest ih =>
    intro m k h
    by_cases hs : env.subOk sym
    · simp only [subscribeSeq, hs, if_true]
      refine ih _ k ?_
      rw [dcontains_dinsert]
      simp [h]
    · simpa only [subscribeSeq, hs, if_false] using h

/-- C3 counterexample: start on a fresh two-symbol handler where the second
subscribe raises leaves the handle of the first symbol recorded in the
subscription dict — the Active Subscription Set is not empty after the
failure, contrary to the claim. -/
theorem C3_counterexample :
    (ExchangeHandler.start h0C3 envC3).raised = true ∧
    (ExchangeHandler.start h0C3 envC3).state.subscriptionIds = [("BTC/USDT", "sub-1")] := by
  refine ⟨rfl, rfl⟩

/-- C3 amended: when start fails, the handler is disconnected, ends in
Error and schedules a reconnect attempt as claimed, but the subscription
dict is not emptied: every handle recorded before the failure (including
the partially established ones) is still present, because _cleanup only
disconnects and never clears the dict. -/
theorem C3_amended (s : HandlerState) (env : StartEnv)
    (hr : (ExchangeHandler.start s env).raised = true) :
    (ExchangeHandler.start s env).state.status = ConnectionStatus.error ∧
    (ExchangeHandler.start s env).state.clientConnected = false ∧
    (ExchangeHandler.start s env).scheduledReconnect = true ∧
    (∀ k, dcontains k s.subscriptionIds = true →
      dcontains k (ExchangeHandler.start s env).state.subscriptionIds = true) := by
  by_cases h : s.status = ConnectionStatus.connected ∨ s.status = ConnectionStatus.connecting
  · simp [ExchangeHandler.start, h] at hr
  · by_cases hc : env.connectOk
    · rcases hseq : subscribeSeq env s.symbols s.subscriptionIds with ⟨m, b⟩
      cases b
      · refine ⟨?_, ?_, ?_, ?_⟩ <;>
          simp only [ExchangeHandler.start, h, hc, hseq, if_false, if_true] <;>
          try rfl
        intro k hk
        have := subscribeSeq_preserves env s.symbols s.subscriptionIds k hk
        rw [hseq] at this
        exact this
      · exfalso
        simp [ExchangeHandler.start, h, hc, hseq] at hr
    · refine ⟨?_, ?_, ?_, ?_⟩ <;> simp [ExchangeHandler.start, h, hc]

/-- C3 witness: the amended theorem at the concrete failing start. -/
theorem C3_witness :
    (ExchangeHandler.start h0C3 envC3).state.status = ConnectionStatus.error ∧
    (ExchangeHandler.start h0C3 envC3).state.clientConnected = false ∧
    (ExchangeHandler.start h0C3 envC3).scheduledReconnect = true ∧
    (∀ k, dcontains k h0C3.subscriptionIds = true →
      dcontains k (ExchangeHandler.start h0C3 envC3).state.subscriptionIds = true) :=
  C3_amended h0C3 envC3 (by decide)

/-! ## Claim C1 -/

/-- Helper: the startup loop issues exactly one symbol-list read for each
user exchange with a truthy ex_id whose category resolves to a non-empty
name. -/
theorem initLoop_symbolReads (cfg : DbConfig) (startOk : String → Bool) :
    ∀ (es : List UserExchange) (acc : InitAcc),
      (initLoop cfg startOk es acc).symbolReads =
        acc.symbolReads + (es.filter (fun e =>
          pyTruthyNat e.exId &&
            (match cfg.catExchanges.find? (fun c => c.catExId == e.catExId) with
             | some c => c.name != ""
             | none => false))).length := by
  intro es
  induction es with
  | nil => intro acc; simp [initLoop]
  | cons e rest ih =>
    intro acc
    by_cases ht : pyTruthyNat e.exId
    · rcases hf : cfg.catExchanges.find? (fun c => c.catExId == e.catExId) with _ | c
      · simp [initLoop, ht, hf, ih]
      · by_cases hn : c.name = ""
        · simp [initLoop, ht, hf, hn, ih]
        · by_cases hssy : (cfg.symbolsByName c.name).isEmpty
          · simp [initLoop, ht, hf, hn, hssy, ih, List.filter_cons]
            try omega
          · by_cases hso : startOk c.name
            · simp [initLoop, ht, hf, hn, hssy, hso, ih, List.filter_cons]
              try omega
            · simp [initLoop, ht, hf, hn, hssy, hso, ih, List.filter_cons]
              try omega
    · simp [initLoop, ht, ih, List.filter_cons]

/-- C1 counterexample: with two configured exchanges the startup of the
daemon issues two symbol-list reads (one filtered get_all per exchange
inside the loop), not the single bulk read the claim requires. -/
theorem C1_counterexample :
    cfgC1.userExchanges.length = 2 ∧
    (init_exchange_handlers cfgC1 allOk).symbolReads = 2 := by
  refine ⟨rfl, rfl⟩

/-- C1 amended: during daemon start the configuration-store symbol list is
read once per configured exchange — for exactly those user exchanges with a
truthy ex_id whose category id resolves to a non-empty exchange name — via
db.symbols.get_all(exchange_name=...) inside the per-exchange loop; there
is no single bulk read filtered in memory (that pattern lives only in the
LiveTickerCollector). -/
theorem C1_amended (cfg : DbConfig) (startOk : String → Bool) :
    (init_exchange_handlers cfg startOk).symbolReads =
      if cfg.dbOk = true ∧ pyTruthyNat cfg.adminUid = true
      then (symbolReadTargets cfg).length else 0 := by
  by_cases hdb : cfg.dbOk <;> by_cases ha : pyTruthyNat cfg.adminUid <;>
    simp [init_exchange_handlers, symbolReadTargets, hdb, ha, initLoop_symbolReads]

/-! ## Claim C4 -/

/-- Helper: membership in the modelled Python set difference. -/
theorem mem_diffList (xs ys : List String) (x : String) :
    x ∈ diffList xs ys ↔ (x ∈ xs ∧ x ∉ ys) := by
  simp [diffList, List.mem_dedup, List.mem_filter]

/-- Helper: lookups after the removal loop — a key is gone exactly when it
was slated for removal and its unsubscribe succeeded; all other entries are
untouched. -/
theorem removePhase_lookup (env : UpdateEnv) :
    ∀ (syms : List String) (m : List (String × String)) (x : String),
      dlookup x (removePhase env m syms).1 =
        if x ∈ syms ∧ env.unsubOk x = true then none else dlookup x m := by
  intro syms
  induction syms with
  | nil => intro m x; simp [removePhase]
  | cons sym rest ih =>
    intro m x
    by_cases hc : dcontains sym m
    · by_cases hus : env.unsubOk sym
      · have hstep : (removePhase env m (sym :: rest)).1 =
            (removePhase env (derase sym m) rest).1 := by
          simp [removePhase, hc, hus]
        rw [hstep, ih]
        by_cases hx : x = sym
        · subst hx
          by_cases hr : x ∈ rest
          · simp [hr, hus]
          · simp [hr, hus, dlookup_derase_self]
        · have hxs : sym ≠ x := fun hh => hx hh.symm
          simp [List.mem_cons, hx, dlookup_derase x sym m hxs]
      · have hstep : (removePhase env m (sym :: rest)).1 = (removePhase env m rest).1 := by
          simp [removePhase, hc, hus]
        rw [hstep, ih]
        by_cases hx : x = sym
        · subst hx; simp [hus]
        · simp [List.mem_cons, hx]
    · have hstep : (removePhase env m (sym :: rest)).1 = (removePhase env m rest).1 := by
        simp [removePhase, hc]
      rw [hstep, ih]
      by_cases hx : x = sym
      · subst hx
        have hn : dlookup x m = none := by
          cases hl : dlookup x m
          · rfl
          · exact absurd (by simp [dcontains, hl]) hc
        by_cases hu : env.unsubOk x = true <;> by_cases hr : x ∈ rest <;>
          simp [hu, hr, hn]
      · simp [List.mem_cons, hx]

/-- Helper: the removal loop issues exactly one unsubscribe call per slated
symbol that is present in the dict, in order. -/
theorem removePhase_calls (env : UpdateEnv) :
    ∀ (syms : List String) (m : List (String × String)), syms.Nodup →
      (removePhase env m syms).2 = syms.filter (fun x => dcontains x m) := by
  intro syms
  induction syms with
  | nil => intro m _; simp [removePhase]
  | cons sym rest ih =>
    intro m hnd
    obtain ⟨hnotin, hnd'⟩ := List.nodup_cons.mp hnd
    have hfc : ∀ m' : List (String × String),
        (∀ y, y ∈ rest → dcontains y m' = dcontains y m) →
        rest.filter (fun x => dcontains x m') = rest.filter (fun x => dcontains x m) := by
      intro m' hsame
      exact List.filter_congr (fun y hy => hsame y hy)
    by_cases hc : dcontains sym m
    · by_cases hus : env.unsubOk sym
      · have hstep : (removePhase env m (sym :: rest)).2 =
            sym :: (removePhase env (derase sym m) rest).2 := by
          simp [removePhase, hc, hus]
        rw [hstep, ih _ hnd', hfc (derase sym m) ?_, List.filter_cons]
        · simp [hc]
        · intro y hy
          have hne : sym ≠ y := fun hh => hnotin (hh ▸ hy)
          simp [dcontains, dlookup_derase y sym m hne]
      · have hstep : (removePhase env m (sym :: rest)).2 =
            sym :: (removePhase env m rest).2 := by
          simp [removePhase, hc, hus]
        rw [hstep, ih _ hnd', List.filter_cons]
        simp [hc]
    · have hstep : (removePhase env m (sym :: rest)).2 = (removePhase env m rest).2 := by
        simp [removePhase, hc]
      rw [hstep, ih _ hnd', List.filter_cons]
      simp [hc]

/-- Helper: lookups after the addition loop — a slated symbol whose
subscribe succeeded maps to its new handle; everything else is untouched. -/
theorem addPhase_lookup (env : UpdateEnv) :
    ∀ (syms : List String) (m : List (String × String)) (x : String),
      dlookup x (addPhase env m syms).1 =
        if x ∈ syms ∧ env.subOk x = true then some (env.subId x) else dlookup x m := by
  intro syms
  induction syms with
  | nil => intro m x; simp [addPhase]
  | cons sym rest ih =>
    intro m x
    by_cases hs : env.subOk sym
    · simp only [addPhase, hs, if_true]
      rw [ih]
      by_cases hx : x = sym
      · subst hx
        by_cases hr : x ∈ rest
        · simp [hr, hs]
        · simp [hr, hs, dlookup_dinsert]
      · have hxs : ¬ sym = x := fun hh => hx hh.symm
        simp [List.mem_cons, hx, dlookup_dinsert, hxs]
    · simp only [addPhase, hs, if_false]
      rw [ih]
      by_cases hx : x = sym
      · subst hx; simp [hs]
      · simp [List.mem_cons, hx]

/-- Helper: the addition loop issues exactly one subscribe call per slated
symbol, in order. -/
theorem addPhase_calls (env : UpdateEnv) :
    ∀ (syms : List String) (m : List (String × String)), (addPhase env m syms).2 = syms := by
  intro syms
  induction syms with
  | nil => intro m; rfl
  | cons sym rest ih =>
    intro m
    by_cases hs : env.subOk sym <;> simp [addPhase, hs, ih]

/-- C4: on a Connected handler whose symbol list agrees with the keys of the
subscription dict, update_symbols(desired) issues exactly one unsubscribe
per symbol of current-minus-desired and exactly one subscribe per symbol of
desired-minus-current, leaves the common symbols untouched (same handle),
and ends with a subscription dict holding exactly the old entries minus the
successfully unsubscribed symbols plus the successfully subscribed ones;
per-symbol failures abort nothing and are not recorded as live
subscriptions. -/
theorem C4_update_symbols_diff (s : HandlerState) (env : UpdateEnv) (desired : List String)
    (hconn : s.status = ConnectionStatus.connected)
    (hsub : ∀ x ∈ s.symbols, dcontains x s.subscriptionIds = true) :
    ((ExchangeHandler.update_symbols s env desired).unsubCalls.Nodup ∧
      ∀ x, x ∈ (ExchangeHandler.update_symbols s env desired).unsubCalls ↔
        (x ∈ s.symbols ∧ x ∉ desired)) ∧
    ((ExchangeHandler.update_symbols s env desired).subCalls.Nodup ∧
      ∀ x, x ∈ (ExchangeHandler.update_symbols s env desired).subCalls ↔
        (x ∈ desired ∧ x ∉ s.symbols)) ∧
    (∀ x, x ∈ s.symbols → x ∈ desired →
      dlookup x (ExchangeHandler.update_symbols s env desired).state.subscriptionIds =
        dlookup x s.subscriptionIds) ∧
    (∀ x,
      dcontains x (ExchangeHandler.update_symbols s env desired).state.subscriptionIds = true ↔
      ((dcontains x s.subscriptionIds = true ∧
          ¬(x ∈ s.symbols ∧ x ∉ desired ∧ env.unsubOk x = true)) ∨
        (x ∈ desired ∧ x ∉ s.symbols ∧ env.subOk x = true))) := by
  have hu : (ExchangeHandler.update_symbols s env desired).unsubCalls =
      (removePhase env s.subscriptionIds (diffList s.symbols desired)).2 := by
    simp [ExchangeHandler.update_symbols, hconn]
  have hsc : (ExchangeHandler.update_symbols s env desired).subCalls =
      (addPhase env (removePhase env s.subscriptionIds (diffList s.symbols desired)).1
        (diffList desired s.symbols)).2 := by
    simp [ExchangeHandler.update_symbols, hconn]
  have hmap : (ExchangeHandler.update_symbols s env desired).state.subscriptionIds =
      (addPhase env (removePhase env s.subscriptionIds (diffList s.symbols desired)).1
        (diffList desired s.symbols)).1 := by
    simp [ExchangeHandler.update_symbols, hconn]
  have hnodupR : (diffList s.symbols desired).Nodup := List.nodup_dedup _
  have hnodupA : (diffList desired s.symbols).Nodup := List.nodup_dedup _
  have hcalls : (removePhase env s.subscriptionIds (diffList s.symbols desired)).2 =
      diffList s.symbols desired := by
    rw [removePhase_calls env (diffList s.symbols desired) s.subscriptionIds hnodupR]
    apply List.filter_eq_self.mpr
    intro a ha
    exact hsub a ((mem_diffList _ _ a).mp ha).1
  refine ⟨⟨?_, ?_⟩, ⟨?_, ?_⟩, ?_, ?_⟩
  · rw [hu, hcalls]
    exact hnodupR
  · intro x
    rw [hu, hcalls]
    exact mem_diffList _ _ x
  · rw [hsc, addPhase_calls]
    exact hnodupA
  · intro x
    rw [hsc, addPhase_calls]
    exact mem_diffList _ _ x
  · intro x hxs hxd
    rw [hmap, addPhase_lookup]
    have hnA : ¬(x ∈ diffList desired s.symbols ∧ env.subOk x = true) := by
      rintro ⟨h1, _⟩
      exact ((mem_diffList _ _ x).mp h1).2 hxs
    rw [if_neg hnA, removePhase_lookup]
    have hnR : ¬(x ∈ diffList s.symbols desired ∧ env.unsubOk x = true) := by
      rintro ⟨h1, _⟩
      exact ((mem_diffList _ _ x).mp h1).2 hxd
    rw [if_neg hnR]
  · intro x
    rw [hmap]
    simp only [dcontains]
    rw [addPhase_lookup, removePhase_lookup]
    by_cases hA' : x ∈ diffList desired s.symbols ∧ env.subOk x = true
    · rw [if_pos hA']
      apply iff_of_true
      · rfl
      · exact Or.inr ⟨((mem_diffList _ _ x).mp hA'.1).1, ((mem_diffList _ _ x).mp hA'.1).2,
          hA'.2⟩
    · rw [if_neg hA']
      by_cases hR' : x ∈ diffList s.symbols desired ∧ env.unsubOk x = true
      · rw [if_pos hR']
        apply iff_of_false
        · simp
        · rintro (⟨_, hnot⟩ | ⟨hd, hns, hso⟩)
          · exact hnot ⟨((mem_diffList _ _ x).mp hR'.1).1, ((mem_diffList _ _ x).mp hR'.1).2,
              hR'.2⟩
          · exact hns ((mem_diffList _ _ x).mp hR'.1).1
      · rw [if_neg hR']
        constructor
        · intro h
          left
          refine ⟨h, ?_⟩
          rintro ⟨hs1, hd1, hu1⟩
          exact hR' ⟨(mem_diffList _ _ x).mpr ⟨hs1, hd1⟩, hu1⟩
        · rintro (⟨h, _⟩ | ⟨hd, hns, hso⟩)
          · exact h
          · exact absurd ⟨(mem_diffList _ _ x).mpr ⟨hd, hns⟩, hso⟩ hA'

/-- C4 witness: the diff theorem at the concrete connected handler of
scenario 2 (current BTC/USDT and ETH/USDT, desired BTC/USDT and ADA/USDT). -/
theorem C4_witness :
    ((ExchangeHandler.update_symbols hC4 envC4 desiredC4).unsubCalls.Nodup ∧
      ∀ x, x ∈ (ExchangeHandler.update_symbols hC4 envC4 desiredC4).unsubCalls ↔
        (x ∈ hC4.symbols ∧ x ∉ desiredC4)) ∧
    ((ExchangeHandler.update_symbols hC4 envC4 desiredC4).subCalls.Nodup ∧
      ∀ x, x ∈ (ExchangeHandler.update_symbols hC4 envC4 desiredC4).subCalls ↔
        (x ∈ desiredC4 ∧ x ∉ hC4.symbols)) ∧
    (∀ x, x ∈ hC4.symbols → x ∈ desiredC4 →
      dlookup x (ExchangeHandler.update_symbols hC4 envC4 desiredC4).state.subscriptionIds =
        dlookup x hC4.subscriptionIds) ∧
    (∀ x,
      dcontains x (ExchangeHandler.update_symbols hC4 envC4 desiredC4).state.subscriptionIds
          = true ↔
      ((dcontains x hC4.subscriptionIds = true ∧
          ¬(x ∈ hC4.symbols ∧ x ∉ desiredC4 ∧ envC4.unsubOk x = true)) ∨
        (x ∈ desiredC4 ∧ x ∉ hC4.symbols ∧ envC4.subOk x = true))) :=
  C4_update_symbols_diff hC4 envC4 desiredC4 rfl (by decide)

/-! ## Claim C8 -/

/-- Helper: length of the capped append. -/
theorem appendCapped_length (l : List Nat) (x : Nat) :
    (appendCapped l x).length = if 1000 < l.length + 1 then 1000 else l.length + 1 := by
  by_cases h : 1000 < l.length + 1 <;>
    simp [appendCapped, h] <;> omega

/-- Helper: the single-tick path preserves any window bound above the cap. -/
theorem latWindowLen_single_le (s : TMState) (ex : String) (tick : Option TMTick)
    (cacheOk : Bool) (lat : Nat) (B : Nat) (hB : 1000 ≤ B)
    (h : ∀ e, latWindowLen s e ≤ B) :
    ∀ e, latWindowLen (TickerManager.process_ticker s ex tick cacheOk lat).1 e ≤ B := by
  intro e
  rcases tick with _ | t
  · simpa [TickerManager.process_ticker] using h e
  · by_cases hv : validTMTick t
    · by_cases hco : cacheOk
      · by_cases hex : ex = e
        · subst hex
          have hcur := h ex
          simp only [latWindowLen] at hcur ⊢
          simp only [TickerManager.process_ticker, hv, hco, if_true]
          rw [dlookup_dinsert, if_pos rfl]
          simp only [Option.getD_some]
          rw [appendCapped_length]
          by_cases hlen : 1000 < ((dlookup ex s.latencySamples).getD []).length + 1
          · simp only [hlen, if_true]
            omega
          · simp only [hlen, if_false]
            omega
        · have hcur := h e
          simp only [latWindowLen] at hcur ⊢
          simp only [TickerManager.process_ticker, hv, hco, if_true]
          rw [dlookup_dinsert]
          simp only [if_neg hex]
          exact hcur
      · simp only [TickerManager.process_ticker, hv, if_true]
        simp only [Bool.not_eq_true] at hco
        simp only [hco, Bool.false_eq_true, if_false]
        exact h e
    · simp only [TickerManager.process_ticker]
      simp only [Bool.not_eq_true] at hv
      simp only [hv, Bool.false_eq_true, if_false]
      exact h e

/-- Helper: the batch path grows any one window by at most one sample. -/
theorem latWindowLen_batch_le (s : TMState) (ex : String) (items : List RawTicker)
    (cacheOk : Bool) (lat : Nat) (B : Nat)
    (h : ∀ e, latWindowLen s e ≤ B) :
    ∀ e, latWindowLen (TickerManager.process_ticker_batch s ex items cacheOk lat) e ≤ B + 1 := by
  intro e
  by_cases hemp : items.isEmpty
  · simp only [TickerManager.process_ticker_batch, hemp, if_true]
    exact Nat.le_succ_of_le (h e)
  · by_cases hval : (items.filterMap (batchMkTick ex)).isEmpty
    · simp only [TickerManager.process_ticker_batch, hemp, Bool.false_eq_true, if_false, hval,
        if_true]
      exact Nat.le_succ_of_le (h e)
    · by_cases hco : cacheOk
      · by_cases hex : ex = e
        · subst hex
          have hcur := h ex
          simp only [latWindowLen] at hcur ⊢
          simp only [TickerManager.process_ticker_batch, hemp, Bool.false_eq_true, if_false,
            hval, hco, if_true]
          rw [dlookup_dinsert, if_pos rfl]
          simp only [Option.getD_some, List.length_append, List.length_cons,
            List.length_nil]
          omega
        · have hcur := h e
          simp only [latWindowLen] at hcur ⊢
          simp only [TickerManager.process_ticker_batch, hemp, Bool.false_eq_true, if_false,
            hval, hco, if_true]
          rw [dlookup_dinsert]
          simp only [if_neg hex]
          exact Nat.le_succ_of_le hcur
      · simp only [Bool.not_eq_true] at hco
        simp only [TickerManager.process_ticker_batch, hemp, Bool.false_eq_true, if_false,
          hval, hco]
        exact Nat.le_succ_of_le (h e)

/-- Helper: window bound along any operation sequence, growing by one per
batch call. -/
theorem runTMOps_bound :
    ∀ (ops : List TMOp) (s : TMState) (B : Nat), 1000 ≤ B →
      (∀ e, latWindowLen s e ≤ B) →
      ∀ e, latWindowLen (runTMOps s ops) e ≤ B + countBatchOps ops := by
  intro ops
  induction ops with
  | nil =>
    intro s B hB h e
    simpa [runTMOps, countBatchOps] using h e
  | cons op rest ih =>
    intro s B hB h e
    cases op with
    | single ex t c l =>
      have h' := latWindowLen_single_le s ex t c l B hB h
      have hrec := ih (TickerManager.process_ticker s ex t c l).1 B hB h' e
      simp [runTMOps, countBatchOps, List.countP_cons] at hrec ⊢
      omega
    | batch ex items c l =>
      have h' := latWindowLen_batch_le s ex items c l B h
      have hrec := ih (TickerManager.process_ticker_batch s ex items c l) (B + 1)
        (by omega) h' e
      simp [runTMOps, countBatchOps, List.countP_cons] at hrec ⊢
      omega

/-- Helper: running a concatenation of operation sequences. -/
theorem runTMOps_append :
    ∀ (a : List TMOp) (s : TMState) (b : List TMOp),
      runTMOps s (a ++ b) = runTMOps (runTMOps s a) b := by
  intro a
  induction a with
  | nil => intro s b; rfl
  | cons op rest ih =>
    intro s b
    cases op <;> simp only [List.cons_append, runTMOps] <;> exact ih _ b

/-- Helper: one successful single tick on the canonical one-exchange state. -/
theorem stepC8 (c : Nat) (w : List Nat) (h : w.length < 1000) :
    (TickerManager.process_ticker (mkStC8 c w) "binance" (some tickC6) true 7).1 =
      mkStC8 (c + 1) (w ++ [7]) := by
  have hv : validTMTick tickC6 = true := by decide
  have hlen : ¬ 1000 < w.length + 1 := by omega
  simp [TickerManager.process_ticker, hv, mkStC8, dbump, dinsert, dlookup, appendCapped, hlen]

/-- Helper: a run of n successful single ticks appends n samples while the
window stays under the cap. -/
theorem iterC8 : ∀ (n c : Nat) (w : List Nat), w.length + n ≤ 1000 →
    runTMOps (mkStC8 c w) (List.replicate n opC8) =
      mkStC8 (c + n) (w ++ List.replicate n 7) := by
  intro n
  induction n with
  | zero =>
    intro c w h
    simp [runTMOps]
  | succ k ih =>
    intro c w h
    rw [List.replicate_succ]
    simp only [opC8, runTMOps]
    rw [stepC8 c w (by omega)]
    have ih' := ih (c + 1) (w ++ [7]) (by simp; omega)
    simp only [opC8] at ih'
    rw [ih']
    have hc : c + 1 + k = c + (k + 1) := by omega
    rw [hc, List.append_assoc]
    have hl : [7] ++ List.replicate k 7 = List.replicate (k + 1) (7 : Nat) := by
      rw [List.singleton_append, List.replicate_succ]
    rw [hl]

/-- Helper: one batch call on the canonical one-exchange state appends one
latency sample with no truncation. -/
theorem batchStepC8 (c : Nat) (w : List Nat) :
    TickerManager.process_ticker_batch (mkStC8 c w) "binance" [rawC8] true 7 =
      mkStC8 (c + 1) (w ++ [7]) := by
  have hraw : batchMkTick "binance" rawC8 =
      some { symbol := "BTC/USDT", exchange := "binance", price := 50000 } := by decide
  simp [TickerManager.process_ticker_batch, List.filterMap_cons, hraw, mkStC8, dbump,
    dlookup, dinsert]

/-- C8 counterexample: after 1000 successfully processed single ticks the
window holds 1000 samples; one subsequent batch call appends a
thousand-and-first sample with no truncation, so the window length reaches
1001, contradicting the claimed bound of 1000. -/
theorem C8_counterexample :
    latWindowLen (runTMOps s0TM opsC8) "binance" = 1001 := by
  have hfirst : (TickerManager.process_ticker s0TM "binance" (some tickC6) true 7).1 =
      mkStC8 1 [7] := by
    have hv : validTMTick tickC6 = true := by decide
    simp [TickerManager.process_ticker, hv, s0TM, mkStC8, dbump, dinsert, dlookup, appendCapped]
  have hfull : ∀ n : Nat, n ≤ 999 →
      runTMOps s0TM (List.replicate (n + 1) opC8) =
        mkStC8 (n + 1) ([7] ++ List.replicate n 7) := by
    intro n h
    rw [List.replicate_succ]
    simp only [opC8, runTMOps]
    rw [hfirst]
    have ih' := iterC8 n 1 [7] (by simp; omega)
    simp only [opC8] at ih'
    rw [ih']
    have hc : 1 + n = n + 1 := by omega
    rw [hc]
  have hsplit : runTMOps s0TM opsC8 =
      runTMOps (runTMOps s0TM (List.replicate 1000 opC8))
        [TMOp.batch "binance" [rawC8] true 7] := by
    rw [show opsC8 = List.replicate 1000 opC8 ++ [TMOp.batch "binance" [rawC8] true 7]
      from rfl]
    exact runTMOps_append _ _ _
  have h1 : runTMOps s0TM (List.replicate 1000 opC8) =
      mkStC8 1000 ([7] ++ List.replicate 999 7) := by
    rw [show (1000 : Nat) = 999 + 1 from rfl]
    exact hfull 999 le_rfl
  rw [hsplit, h1]
  have hrun : runTMOps (mkStC8 1000 ([7] ++ List.replicate 999 7))
        [TMOp.batch "binance" [rawC8] true 7] =
      TickerManager.process_ticker_batch (mkStC8 1000 ([7] ++ List.replicate 999 7))
        "binance" [rawC8] true 7 := rfl
  rw [hrun, batchStepC8]
  simp only [latWindowLen, mkStC8]
  rw [dlookup_singleton_self]
  simp only [Option.getD_some, List.length_append, List.length_replicate,
    List.length_cons, List.length_nil]

/-- C8 amended: along any sequence of manager operations the per-exchange
latency window stays within 1000 plus the number of batch calls: the
single-tick path enforces the 1000-sample cap, but the batch path appends
its one sample per call without truncation, so only batch traffic can push
the window past 1000, by at most one sample per batch call. -/
theorem C8_amended (s : TMState) (ops : List TMOp)
    (hbound : ∀ e, latWindowLen s e ≤ 1000) :
    ∀ e, latWindowLen (runTMOps s ops) e ≤ 1000 + countBatchOps ops :=
  runTMOps_bound ops s 1000 le_rfl hbound

/-- C8 witness: the amended bound applied to a fresh manager and a single
one-element operation sequence. -/
theorem C8_witness :
    latWindowLen (runTMOps s0TM [opC8]) "binance" ≤ 1000 + countBatchOps [opC8] :=
  C8_amended s0TM [opC8] (fun e => by simp [latWindowLen, s0TM, dlookup]) "binance"

/-! ## Claim C9 -/

/-- Helper: a list whose consecutive elements are at least 30 apart has at
most one element in any window of the form t0 ≤ t < t0 + 30. -/
theorem spaced_window_count :
    ∀ (l : List Int), l.Pairwise (fun a b => a + 30 ≤ b) →
      ∀ t0 : Int,
        (l.filter (fun t => decide (t0 ≤ t) && decide (t < t0 + 30))).length ≤ 1 := by
  intro l
  induction l with
  | nil => intro _ t0; simp
  | cons a l ih =>
    intro hpw t0
    obtain ⟨ha, hpw'⟩ := List.pairwise_cons.mp hpw
    by_cases hin : t0 ≤ a ∧ a < t0 + 30
    · have hnil : l.filter (fun t => decide (t0 ≤ t) && decide (t < t0 + 30)) = [] := by
        rw [List.filter_eq_nil_iff]
        intro b hb
        have hab := ha b hb
        simp only [Bool.and_eq_true, decide_eq_true_eq, not_and]
        intro _
        omega
      rw [List.filter_cons]
      have hcond : (decide (t0 ≤ a) && decide (a < t0 + 30)) = true := by
        simp only [Bool.and_eq_true, decide_eq_true_eq]
        exact hin
      rw [if_pos hcond, hnil]
      simp
    · rw [List.filter_cons]
      have hcond : ¬ (decide (t0 ≤ a) && decide (a < t0 + 30)) = true := by
        simp only [Bool.and_eq_true, decide_eq_true_eq]
        exact hin
      rw [if_neg hcond]
      exact ih hpw' t0

/-- Helper: the Running times of a concatenation of write lists. -/
theorem runningTimes_append (key : String) (a b : List HealthWrite) :
    runningTimes key (a ++ b) = runningTimes key a ++ runningTimes key b := by
  simp [runningTimes, List.filterMap_append]

/-- Helper: the Running times of a single matching write. -/
theorem runningTimes_single_pos (key : String) (t : Int) :
    runningTimes key [⟨key, true, t⟩] = [t] := by
  simp [runningTimes]

/-- Helper: the Running times of a single write for a different key. -/
theorem runningTimes_single_ne (key k' : String) (t : Int) (h : ¬ k' = key) :
    runningTimes key [⟨k', true, t⟩] = [] := by
  simp [runningTimes, h]

/-- Helper: over a trace of successfully processed ticks, the Running
health-write times for one key sit at least 30 seconds above the recorded
last update at the start of the trace and are pairwise at least 30 seconds
apart. -/
theorem runCallbacks_spaced (exchangeName key : String) :
    ∀ (events : List CbEvent) (st : CollectorState),
      (∀ e ∈ events, e.cacheOk = true) →
      (∀ x ∈ runningTimes key (runCallbacks st exchangeName events).2,
          (dlookup key st.lastProcessUpdate).getD 0 + 30 ≤ x) ∧
      (runningTimes key (runCallbacks st exchangeName events).2).Pairwise
        (fun a b => a + 30 ≤ b) := by
  intro events
  induction events with
  | nil =>
    intro st _
    simp [runCallbacks, runningTimes]
  | cons ev rest ih =>
    intro st hok
    have hokev : ev.cacheOk = true := hok ev (List.mem_cons_self _ _)
    have hokrest : ∀ e ∈ rest, e.cacheOk = true := fun e he =>
      hok e (List.mem_cons_of_mem _ he)
    rcases hsym : ev.symbol with _ | sym
    · have hstep : ticker_callback st exchangeName ev = (st, []) := by
        simp [ticker_callback, hsym]
      simp only [runCallbacks, hstep, List.nil_append]
      exact ih st hokrest
    · by_cases hreg : dcontains (exchangeName ++ ":" ++ sym) st.processIds
      · by_cases hgap : 30 ≤ ev.now -
            (dlookup (exchangeName ++ ":" ++ sym) st.lastProcessUpdate).getD 0
        · have hstep : ticker_callback st exchangeName ev =
              ({ st with lastProcessUpdate :=
                  dinsert (exchangeName ++ ":" ++ sym) ev.now st.lastProcessUpdate },
               [⟨exchangeName ++ ":" ++ sym, true, ev.now⟩]) := by
            simp [ticker_callback, hsym, hokev, hreg, hgap]
          have hih := ih (ticker_callback st exchangeName ev).1 hokrest
          rw [hstep] at hih
          rw [dlookup_dinsert] at hih
          simp only [runCallbacks, hstep]
          rw [runningTimes_append]
          by_cases hk : exchangeName ++ ":" ++ sym = key
          · rw [if_pos hk, Option.getD_some] at hih
            simp only [hk] at hih
            rw [hk, runningTimes_single_pos, List.singleton_append]
            rw [hk] at hgap
            constructor
            · intro x hx
              rcases List.mem_cons.mp hx with hx0 | hx1
              · subst hx0
                omega
              · have := hih.1 x hx1
                omega
            · refine List.pairwise_cons.mpr ⟨?_, hih.2⟩
              intro b hb
              exact hih.1 b hb
          · rw [if_neg hk] at hih
            rw [runningTimes_single_ne key _ _ hk, List.nil_append]
            exact hih
        · have hstep : ticker_callback st exchangeName ev = (st, []) := by
            simp [ticker_callback, hsym, hokev, hreg, hgap]
          simp only [runCallbacks, hstep, List.nil_append]
          exact ih st hokrest
      · have hstep : ticker_callback st exchangeName ev = (st, []) := by
          simp [ticker_callback, hsym, hokev, hreg]
        simp only [runCallbacks, hstep, List.nil_append]
        exact ih st hokrest

/-- C9 counterexample: a tick that arrives 10 seconds after the last
recorded health update but whose cache write fails triggers an immediate
Error-status health write for the key — a health write inside the 30-second
window, which the claim forbids. -/
theorem C9_counterexample :
    (dlookup keyC9 stC9.lastProcessUpdate).getD 0 = 100 ∧
    evC9.now = 110 ∧
    (ticker_callback stC9 "binance" evC9).2 = [⟨keyC9, false, 110⟩] := by
  refine ⟨rfl, rfl, rfl⟩

/-- C9 amended: for ticks whose cache write succeeds the 30-second rate
limit holds — a successfully processed tick less than 30 seconds after the
last recorded update for its key performs no health write and leaves the
recorded timestamp unchanged, and over any trace of successfully processed
ticks at most one Running update for a key falls inside any half-open
30-second window.  Error-status writes on the delivery-exception path are
not rate-limited. -/
theorem C9_amended :
    (∀ (st : CollectorState) (exchangeName : String) (ev : CbEvent) (sym : String),
      ev.cacheOk = true → ev.symbol = some sym →
      ev.now - (dlookup (exchangeName ++ ":" ++ sym) st.lastProcessUpdate).getD 0 < 30 →
      ticker_callback st exchangeName ev = (st, [])) ∧
    (∀ (st : CollectorState) (exchangeName key : String) (events : List CbEvent) (t0 : Int),
      (∀ e ∈ events, e.cacheOk = true) →
      ((runningTimes key (runCallbacks st exchangeName events).2).filter
          (fun t => decide (t0 ≤ t) && decide (t < t0 + 30))).length ≤ 1) := by
  constructor
  · intro st exchangeName ev sym hco hsym hgap
    have hgap' : ¬ 30 ≤ ev.now -
        (dlookup (exchangeName ++ ":" ++ sym) st.lastProcessUpdate).getD 0 := by omega
    by_cases hreg : dcontains (exchangeName ++ ":" ++ sym) st.processIds <;>
      simp [ticker_callback, hsym, hco, hreg, hgap']
  · intro st exchangeName key events t0 hok
    exact spaced_window_count _ (runCallbacks_spaced exchangeName key events st hok).2 t0

/-- C9 witness: the amended theorem at the concrete collector state — a
successful tick 10 seconds after the last update writes nothing, and a
two-tick trace stays within one Running write per 30-second window. -/
theorem C9_witness :
    ticker_callback stC9 "binance" evC9ok = (stC9, []) ∧
    ((runningTimes keyC9 (runCallbacks stC9 "binance" evsC9).2).filter
        (fun t => decide ((100 : Int) ≤ t) && decide (t < 100 + 30))).length ≤ 1 :=
  ⟨C9_amended.1 stC9 "binance" evC9ok "BTC/USDT" rfl rfl (by decide),
   C9_amended.2 stC9 "binance" keyC9 evsC9 100 (by decide)⟩

end TickerService
